import Mathlib

namespace CompareYaml

/-! ### Character-list lexicographic order

Python compares strings lexicographically by Unicode code points.  We embed
that order as a boolean function on `List Char` (a `String`'s character data)
so that every comparison in the development is executable. -/

/-- Lexicographic strict order on character lists, by code points; a proper
prefix is smaller.  This is Python's `<` on `str`. -/
def charListLt : List Char → List Char → Bool
  | _, [] => false
  | [], _ :: _ => true
  | a :: l, b :: m => if a < b then true else if b < a then false else charListLt l m

/-- Python's `<` on `str`, on the underlying character data. -/
def strLt (a b : String) : Bool := charListLt a.data b.data

theorem charListLt_nil_right : ∀ l : List Char, charListLt l [] = false
  | [] => rfl
  | _ :: _ => rfl

theorem charListLt_irrefl : ∀ l : List Char, charListLt l l = false
  | [] => rfl
  | a :: l => by
      simp only [charListLt, lt_irrefl, if_false]
      exact charListLt_irrefl l

theorem charListLt_asymm : ∀ l m : List Char,
    charListLt l m = true → charListLt m l = false
  | l, [], h => by rw [charListLt_nil_right] at h; cases h
  | [], _ :: _, _ => charListLt_nil_right _
  | a :: l, b :: m, h => by
      simp only [charListLt] at h ⊢
      rcases lt_trichotomy a b with hab | hab | hab
      · simp [hab, not_lt_of_lt hab]
      · subst hab
        simp only [lt_irrefl, if_false] at h ⊢
        exact charListLt_asymm l m h
      · simp [hab, not_lt_of_lt hab] at h

theorem charListLt_antisymm : ∀ l m : List Char,
    charListLt l m = false → charListLt m l = false → l = m
  | [], [], _, _ => rfl
  | [], _ :: _, h, _ => by cases h
  | _ :: _, [], _, h' => by cases h'
  | a :: l, b :: m, h, h' => by
      simp only [charListLt] at h h'
      rcases lt_trichotomy a b with hab | hab | hab
      · simp [hab] at h
      · subst hab
        simp only [lt_irrefl, if_false] at h h'
        rw [charListLt_antisymm l m h h']
      · simp [hab] at h'

theorem charListLt_trans : ∀ l m k : List Char,
    charListLt l m = true → charListLt m k = true → charListLt l k = true
  | _, m, [], _, h' => by rw [charListLt_nil_right] at h'; cases h'
  | [], m, _ :: _, _, _ => rfl
  | a :: l, [], _ :: _, h, _ => by rw [charListLt_nil_right] at h; cases h
  | a :: l, b :: m, c :: k, h, h' => by
      simp only [charListLt] at h h' ⊢
      rcases lt_trichotomy a b with hab | hab | hab
      · rcases lt_trichotomy b c with hbc | hbc | hbc
        · simp [lt_trans hab hbc]
        · subst hbc; simp [hab]
        · simp [hbc, not_lt_of_lt hbc] at h'
      · subst hab
        rcases lt_trichotomy a c with hac | hac | hac
        · simp [hac]
        · subst hac
          simp only [lt_irrefl, if_false] at h h' ⊢
          exact charListLt_trans l m k h h'
        · simp [hac, not_lt_of_lt hac] at h'
      · simp [hab, not_lt_of_lt hab] at h

/-- The non-strict order induced by `charListLt`, i.e. `¬ (m < l)`.  A stable
sort driven by the strict order `<` (as Python's `sorted` is) produces a list
that is sorted with respect to this relation. -/
def charListLe (l m : List Char) : Prop := charListLt m l = false

instance : DecidableRel charListLe := fun _ _ => instDecidableEqBool _ _

theorem charListLe_total : ∀ l m : List Char, charListLe l m ∨ charListLe m l := by
  intro l m
  unfold charListLe
  by_cases h : charListLt m l = true
  · exact Or.inr (charListLt_asymm m l h)
  · exact Or.inl (Bool.not_eq_true _ ▸ h)

theorem charListLe_trans : ∀ l m k : List Char,
    charListLe l m → charListLe m k → charListLe l k := by
  intro l m k h h'
  unfold charListLe at h h' ⊢
  by_cases hk : charListLt k l = true
  · by_cases hab : charListLt l m = true
    · have := charListLt_trans k l m hk hab
      rw [this] at h'; cases h'
    · have heq := charListLt_antisymm l m (Bool.not_eq_true _ ▸ hab) h
      subst heq
      rw [hk] at h'; cases h'
  · exact Bool.not_eq_true _ ▸ hk

theorem charListLe_antisymm : ∀ l m : List Char,
    charListLe l m → charListLe m l → l = m := by
  intro l m h h'
  exact charListLt_antisymm l m h' h

instance : IsTotal (List Char) charListLe := ⟨charListLe_total⟩
instance : IsTrans (List Char) charListLe := ⟨charListLe_trans⟩
instance : IsAntisymm (List Char) charListLe := ⟨charListLe_antisymm⟩

/-! ### The normalizer (`normalize_source` in `compare_yaml.py`)

Python's `str.replace(pat, rep)` scans left to right, replaces each
non-overlapping occurrence of `pat` and continues scanning after the
replacement.  `normalize_source` performs two such replacements with the
fixed three-character patterns `v\d` and `v.*`, both replaced by `v*`; we
embed each `replace` as a structural recursion specialized to its fixed
pattern. -/

/-- Python `source.replace("v\\d", "v*")` on character data ( `"v\\d"` is the
three characters `v`, `\`, `d`). -/
def repVd : List Char → List Char
  | 'v' :: '\\' :: 'd' :: rest => 'v' :: '*' :: repVd rest
  | c :: rest => c :: repVd rest
  | [] => []

/-- Python `source.replace("v.*", "v*")` on character data. -/
def repVstar : List Char → List Char
  | 'v' :: '.' :: '*' :: rest => 'v' :: '*' :: repVstar rest
  | c :: rest => c :: repVstar rest
  | [] => []

/-- `normalize_source` from `compare_yaml.py`: replace `v\d`, then `v.*`,
each by `v*` (two successive Python `str.replace` calls). -/
def normalize_source (s : String) : String := ⟨repVstar (repVd s.data)⟩

/-- The first two characters of `t` are `q` and `r`. -/
def matchHead2 (q r : Char) (t : List Char) : Bool :=
  t.head? == some q && t.tail.head? == some r

/-- `l` contains an occurrence of the three-character pattern `p q r`. -/
def hasTriple (p q r : Char) : List Char → Bool
  | a :: b :: c :: rest => (a == p && b == q && c == r) || hasTriple p q r (b :: c :: rest)
  | _ => false

theorem hasTriple_cons (p q r a : Char) (t : List Char) :
    hasTriple p q r (a :: t) = ((a == p && matchHead2 q r t) || hasTriple p q r t) := by
  match t with
  | [] => simp [hasTriple, matchHead2]
  | [b] => simp [hasTriple, matchHead2]
  | b :: c :: t' => simp [hasTriple, matchHead2, Bool.and_assoc]

theorem hasTriple_tail {p q r a : Char} {t : List Char}
    (h : hasTriple p q r (a :: t) = false) : hasTriple p q r t = false := by
  rw [hasTriple_cons] at h
  exact (Bool.or_eq_false_iff.mp h).2

theorem repVd_head : ∀ l : List Char, (repVd l).head? = l.head? := by
  intro l
  rw [repVd.eq_def]
  split <;> rfl

theorem repVstar_head : ∀ l : List Char, (repVstar l).head? = l.head? := by
  intro l
  rw [repVstar.eq_def]
  split <;> rfl

/-- The conditional fall-through equation for `repVd`. -/
theorem repVd_cons_not_pat (a : Char) (t : List Char)
    (h : ∀ r₁ : List Char, a = 'v' → t = '\\' :: 'd' :: r₁ → False) :
    repVd (a :: t) = a :: repVd t := by
  rw [repVd.eq_def]
  split
  · next rest heq =>
      injection heq with h1 h2
      exact (h rest h1 h2).elim
  · next c rest heq =>
      injection heq with h1 h2
      subst h1; subst h2; rfl
  · next heq => cases heq

/-- The conditional fall-through equation for `repVstar`. -/
theorem repVstar_cons_not_pat (a : Char) (t : List Char)
    (h : ∀ r₁ : List Char, a = 'v' → t = '.' :: '*' :: r₁ → False) :
    repVstar (a :: t) = a :: repVstar t := by
  rw [repVstar.eq_def]
  split
  · next rest heq =>
      injection heq with h1 h2
      exact (h rest h1 h2).elim
  · next c rest heq =>
      injection heq with h1 h2
      subst h1; subst h2; rfl
  · next heq => cases heq

/-- The output of the first replacement contains no occurrence of `v\d`. -/
theorem not_hasVd_repVd : ∀ l : List Char, hasTriple 'v' '\\' 'd' (repVd l) = false := by
  intro l
  induction l using repVd.induct with
  | case1 rest ih =>
      rw [repVd, hasTriple_cons, hasTriple_cons, ih]
      simp [matchHead2, repVd_head]
  | case2 c rest h ih =>
      rw [repVd_cons_not_pat c rest h, hasTriple_cons, ih]
      simp only [Bool.or_false]
      by_cases hcv : c = 'v'
      case neg => simp [hcv]
      case pos =>
        subst hcv
        simp only [beq_self_eq_true, Bool.true_and]
        match hrest : rest with
        | [] => simp [matchHead2, repVd]
        | b :: rest' =>
            by_cases hbv : b = '\\'
            case neg => simp [matchHead2, repVd_head, hbv]
            case pos =>
              subst hbv
              have hb2 : repVd ('\\' :: rest') = '\\' :: repVd rest' :=
                repVd_cons_not_pat _ _ (by intro r₁ hv _; cases hv)
              rw [hb2]
              match rest' with
              | [] => simp [matchHead2, repVd]
              | e :: rest'' =>
                  by_cases hed : e = 'd'
                  case neg => simp [matchHead2, repVd_head, hed]
                  case pos =>
                    subst hed
                    exact (h rest'' rfl rfl).elim
  | case3 => rfl

/-- The output of the second replacement contains no occurrence of `v.*`. -/
theorem not_hasVstar_repVstar : ∀ l : List Char,
    hasTriple 'v' '.' '*' (repVstar l) = false := by
  intro l
  induction l using repVstar.induct with
  | case1 rest ih =>
      rw [repVstar, hasTriple_cons, hasTriple_cons, ih]
      simp [matchHead2, repVstar_head]
  | case2 c rest h ih =>
      rw [repVstar_cons_not_pat c rest h, hasTriple_cons, ih]
      simp only [Bool.or_false]
      by_cases hcv : c = 'v'
      case neg => simp [hcv]
      case pos =>
        subst hcv
        simp only [beq_self_eq_true, Bool.true_and]
        match hrest : rest with
        | [] => simp [matchHead2, repVstar]
        | b :: rest' =>
            by_cases hbv : b = '.'
            case neg => simp [matchHead2, repVstar_head, hbv]
            case pos =>
              subst hbv
              have hb2 : repVstar ('.' :: rest') = '.' :: repVstar rest' :=
                repVstar_cons_not_pat _ _ (by intro r₁ hv _; cases hv)
              rw [hb2]
              match rest' with
              | [] => simp [matchHead2, repVstar]
              | e :: rest'' =>
                  by_cases hed : e = '*'
                  case neg => simp [matchHead2, repVstar_head, hed]
                  case pos =>
                    subst hed
                    exact (h rest'' rfl rfl).elim
  | case3 => rfl

/-- The second replacement creates no new occurrence of `v\d`. -/
theorem not_hasVd_repVstar : ∀ l : List Char,
    hasTriple 'v' '\\' 'd' l = false → hasTriple 'v' '\\' 'd' (repVstar l) = false := by
  intro l
  induction l using repVstar.induct with
  | case1 rest ih =>
      intro hs
      have hrest := hasTriple_tail (hasTriple_tail (hasTriple_tail hs))
      rw [repVstar, hasTriple_cons, hasTriple_cons, ih hrest]
      simp [matchHead2, repVstar_head]
  | case2 c rest h ih =>
      intro hs
      have hrest := hasTriple_tail hs
      rw [repVstar_cons_not_pat c rest h, hasTriple_cons, ih hrest]
      simp only [Bool.or_false]
      by_cases hcv : c = 'v'
      case neg => simp [hcv]
      case pos =>
        subst hcv
        simp only [beq_self_eq_true, Bool.true_and]
        match hr : rest with
        | [] => simp [matchHead2, repVstar]
        | b :: rest' =>
            by_cases hbv : b = '\\'
            case neg => simp [matchHead2, repVstar_head, hbv]
            case pos =>
              subst hbv
              have hb2 : repVstar ('\\' :: rest') = '\\' :: repVstar rest' :=
                repVstar_cons_not_pat _ _ (by intro r₁ hv _; cases hv)
              rw [hb2]
              match rest' with
              | [] => simp [matchHead2, repVstar]
              | e :: rest'' =>
                  by_cases hed : e = 'd'
                  case neg => simp [matchHead2, repVstar_head, hed]
                  case pos =>
                    subst hed
                    rw [hasTriple_cons] at hs
                    simp [matchHead2] at hs
  | case3 => intro _; rfl

/-- If `l` has no occurrence of `v\d`, the first replacement is the identity. -/
theorem repVd_of_not_hasVd : ∀ l : List Char,
    hasTriple 'v' '\\' 'd' l = false → repVd l = l := by
  intro l
  induction l using repVd.induct with
  | case1 rest ih =>
      intro hs
      rw [hasTriple_cons] at hs
      simp [matchHead2] at hs
  | case2 c rest h ih =>
      intro hs
      rw [repVd_cons_not_pat c rest h, ih (hasTriple_tail hs)]
  | case3 => intro _; rfl

/-- If `l` has no occurrence of `v.*`, the second replacement is the identity. -/
theorem repVstar_of_not_hasVstar : ∀ l : List Char,
    hasTriple 'v' '.' '*' l = false → repVstar l = l := by
  intro l
  induction l using repVstar.induct with
  | case1 rest ih =>
      intro hs
      rw [hasTriple_cons] at hs
      simp [matchHead2] at hs
  | case2 c rest h ih =>
      intro hs
      rw [repVstar_cons_not_pat c rest h, ih (hasTriple_tail hs)]
  | case3 => intro _; rfl

/-- `normalize_source` is idempotent. -/
theorem normalize_source_idem (s : String) :
    normalize_source (normalize_source s) = normalize_source s := by
  unfold normalize_source
  have hvdu : hasTriple 'v' '\\' 'd' (repVd s.data) = false := not_hasVd_repVd s.data
  have hvdw : hasTriple 'v' '\\' 'd' (repVstar (repVd s.data)) = false :=
    not_hasVd_repVstar _ hvdu
  have hvsw : hasTriple 'v' '.' '*' (repVstar (repVd s.data)) = false :=
    not_hasVstar_repVstar _
  rw [show (String.mk (repVstar (repVd s.data))).data = repVstar (repVd s.data) from rfl,
    repVd_of_not_hasVd _ hvdw, repVstar_of_not_hasVstar _ hvsw]

/-! ### Data model (`compare_yaml.py`)

`DockerConfig`, `DeepCopyRegexItem` and `OwlBotConfig` with their `__eq__`
and `__lt__` methods.  Python `None` becomes `Option.none`; a Python list
becomes a Lean list.  Python compares `str` by code points, which is
`strLt`/`charListLt` above. -/

/-- `DockerConfig` in `compare_yaml.py`: a wrapper around the image name. -/
structure DockerConfig where
  image : String
deriving DecidableEq

/-- `DeepCopyRegexItem` in `compare_yaml.py` (the `tmp` one): a
`source`/`dest` pair of strings. -/
structure DeepCopyRegexItem where
  source : String
  dest : String
deriving DecidableEq

/-- `DeepCopyRegexItem.__eq__`: normalized sources equal and dests equal. -/
def DeepCopyRegexItem.beq (a b : DeepCopyRegexItem) : Bool :=
  normalize_source a.source == normalize_source b.source && a.dest == b.dest

/-- `DeepCopyRegexItem.__lt__`: compare by `normalize_source source` first,
then by `dest` (Python string `<`). -/
def DeepCopyRegexItem.lt (a b : DeepCopyRegexItem) : Bool :=
  if strLt (normalize_source a.source) (normalize_source b.source) then true
  else if normalize_source a.source == normalize_source b.source then strLt a.dest b.dest
  else false

/-- `OwlBotConfig` in `compare_yaml.py`: the parsed form of one
`.OwlBot-hermetic.yaml` file. -/
structure OwlBotConfig where
  api_name : Option String
  begin_after_commit_hash : Option String
  docker : Option DockerConfig
  squash : Option Bool
  deep_copy_regex : Option (List DeepCopyRegexItem)
  deep_remove_regex : Option (List String)
  deep_preserve_regex : Option (List String)
deriving DecidableEq

/-- `self.docker == other.docker` in `OwlBotConfig.__eq__`: `None` equals
only `None`, and `DockerConfig.__eq__` compares the `image` fields. -/
def dockerOptBeq : Option DockerConfig → Option DockerConfig → Bool
  | none, none => true
  | some d1, some d2 => d1.image == d2.image
  | _, _ => false

/-- `¬ (b < a)` for Python strings: the non-strict order in which a stable
sort driven by `<` leaves its output. -/
def strLe (a b : String) : Prop := charListLe a.data b.data

instance : DecidableRel strLe := fun _ _ => instDecidableEqBool _ _

instance : IsTotal String strLe := ⟨fun a b => charListLe_total a.data b.data⟩
instance : IsTrans String strLe :=
  ⟨fun a b c => charListLe_trans a.data b.data c.data⟩
instance : IsAntisymm String strLe :=
  ⟨fun a b h h' => by
    cases a; cases b
    exact congrArg String.mk (charListLe_antisymm _ _ h h')⟩

/-- Python `sorted` on a list of strings: a stable sort driven by `<`
(code-point lexicographic).  For strings the result is independent of
stability, since elements that are equivalent under the order are equal. -/
def pySortStr (l : List String) : List String :=
  List.insertionSort strLe l

/-- Python `sorted` on a list of `DeepCopyRegexItem`, driven by `__lt__`.
`List.insertionSort r` with `r a b := ¬ (b < a)` is a stable sort with
respect to the strict order `<`, which is what Python's `sorted`
guarantees. -/
def pySortItems (l : List DeepCopyRegexItem) : List DeepCopyRegexItem :=
  List.insertionSort (fun a b => DeepCopyRegexItem.lt b a = false) l

/-- Python `==` on two lists of `DeepCopyRegexItem`: same length and
element-wise `DeepCopyRegexItem.__eq__`. -/
def listEqItems : List DeepCopyRegexItem → List DeepCopyRegexItem → Bool
  | [], [] => true
  | a :: l, b :: m => a.beq b && listEqItems l m
  | _, _ => false

/-- The inner helper `compare_lists` of `OwlBotConfig.__eq__`, at type
`List[str]`: both `None` are equal; exactly one `None` is unequal; if either
list is empty they are equal iff both are; otherwise compare the sorted
lists. -/
def compare_lists_str : Option (List String) → Option (List String) → Bool
  | none, none => true
  | none, some _ => false
  | some _, none => false
  | some l1, some l2 =>
      if l1.isEmpty || l2.isEmpty then l1.isEmpty && l2.isEmpty
      else pySortStr l1 == pySortStr l2

/-- The inner helper `compare_lists` of `OwlBotConfig.__eq__`, at type
`List[DeepCopyRegexItem]` (membership and element equality go through
`DeepCopyRegexItem.__eq__`). -/
def compare_lists_item : Option (List DeepCopyRegexItem) → Option (List DeepCopyRegexItem) → Bool
  | none, none => true
  | none, some _ => false
  | some _, none => false
  | some l1, some l2 =>
      if l1.isEmpty || l2.isEmpty then l1.isEmpty && l2.isEmpty
      else listEqItems (pySortItems l1) (pySortItems l2)

/-- `OwlBotConfig.__eq__`: conjunction of the four scalar comparisons and the
three `compare_lists` comparisons. -/
def OwlBotConfig.beq (c1 c2 : OwlBotConfig) : Bool :=
  c1.api_name == c2.api_name &&
  c1.begin_after_commit_hash == c2.begin_after_commit_hash &&
  dockerOptBeq c1.docker c2.docker &&
  c1.squash == c2.squash &&
  compare_lists_item c1.deep_copy_regex c2.deep_copy_regex &&
  compare_lists_str c1.deep_remove_regex c2.deep_remove_regex &&
  compare_lists_str c1.deep_preserve_regex c2.deep_preserve_regex

/-! ### Sorting facts

`DeepCopyRegexItem.__eq__` and `__lt__` both factor through the pair
`(normalize_source source, dest)`.  We exploit this to reason about
`sorted(list1) == sorted(list2)` via the lexicographic order on pairs of
character lists. -/

/-- The comparison key of a `DeepCopyRegexItem`: both `__eq__` and `__lt__`
depend only on this pair. -/
def itemKey (it : DeepCopyRegexItem) : List Char × List Char :=
  ((normalize_source it.source).data, it.dest.data)

/-- Lexicographic strict order on key pairs. -/
def pairLt (p q : List Char × List Char) : Prop :=
  charListLt p.1 q.1 = true ∨ (p.1 = q.1 ∧ charListLt p.2 q.2 = true)

/-- The associated non-strict order, `¬ (q < p)`. -/
def pairLe (p q : List Char × List Char) : Prop := ¬ pairLt q p

instance : DecidableRel pairLt := fun p q => by unfold pairLt; infer_instance
instance : DecidableRel pairLe := fun p q => by unfold pairLe; infer_instance

theorem pairLt_trans {p q r : List Char × List Char}
    (h : pairLt p q) (h' : pairLt q r) : pairLt p r := by
  rcases h with h | ⟨he, h2⟩
  · rcases h' with h' | ⟨he', h2'⟩
    · exact Or.inl (charListLt_trans _ _ _ h h')
    · exact Or.inl (he' ▸ h)
  · rcases h' with h' | ⟨he', h2'⟩
    · exact Or.inl (he ▸ h')
    · exact Or.inr ⟨he.trans he', charListLt_trans _ _ _ h2 h2'⟩

theorem pairLt_irrefl (p : List Char × List Char) : ¬ pairLt p p := by
  intro h
  rcases h with h | ⟨_, h2⟩
  · rw [charListLt_irrefl] at h; cases h
  · rw [charListLt_irrefl] at h2; cases h2

theorem pairEq_of_not_lt {p q : List Char × List Char}
    (h : ¬ pairLt p q) (h' : ¬ pairLt q p) : p = q := by
  unfold pairLt at h h'
  push_neg at h h'
  obtain ⟨h1, h2⟩ := h
  obtain ⟨h1', h2'⟩ := h'
  have e1 : p.1 = q.1 :=
    charListLt_antisymm _ _ (Bool.not_eq_true _ ▸ h1) (Bool.not_eq_true _ ▸ h1')
  have e2 : p.2 = q.2 :=
    charListLt_antisymm _ _ (Bool.not_eq_true _ ▸ h2 e1) (Bool.not_eq_true _ ▸ h2' e1.symm)
  exact Prod.ext e1 e2

instance : IsTotal (List Char × List Char) pairLe :=
  ⟨fun p q => by
    by_cases h : pairLt q p
    · exact Or.inr (fun h' => pairLt_irrefl p (pairLt_trans h' h))
    · exact Or.inl h⟩

instance : IsTrans (List Char × List Char) pairLe :=
  ⟨fun p q r h h' => by
    intro hrp
    by_cases hpq : pairLt p q
    · exact h' (pairLt_trans hrp hpq)
    · exact h' (pairEq_of_not_lt hpq h ▸ hrp)⟩

instance : IsAntisymm (List Char × List Char) pairLe :=
  ⟨fun _ _ h h' => pairEq_of_not_lt h' h⟩

/-- Two strings are equal iff their character data are. -/
theorem str_eq_iff_data_eq (a b : String) : a = b ↔ a.data = b.data := by
  cases a; cases b
  exact ⟨congrArg String.data, congrArg String.mk⟩

/-- `DeepCopyRegexItem.__lt__` is the lexicographic order on keys. -/
theorem item_lt_iff_pairLt (a b : DeepCopyRegexItem) :
    DeepCopyRegexItem.lt a b = true ↔ pairLt (itemKey a) (itemKey b) := by
  unfold DeepCopyRegexItem.lt pairLt itemKey strLt
  simp only [beq_iff_eq, str_eq_iff_data_eq]
  by_cases h1 : charListLt (normalize_source a.source).data (normalize_source b.source).data = true
  · simp [h1]
  · by_cases h2 : (normalize_source a.source).data = (normalize_source b.source).data
    · simp [h1, h2]
    · simp [h1, h2]

/-- `DeepCopyRegexItem.__eq__` is equality of keys. -/
theorem item_beq_iff_key_eq (a b : DeepCopyRegexItem) :
    DeepCopyRegexItem.beq a b = true ↔ itemKey a = itemKey b := by
  unfold DeepCopyRegexItem.beq itemKey
  simp only [Bool.and_eq_true, beq_iff_eq, Prod.ext_iff, str_eq_iff_data_eq]

/-- Element-wise Python `==` of item lists is equality of the key lists. -/
theorem listEqItems_iff_map_key : ∀ u v : List DeepCopyRegexItem,
    listEqItems u v = true ↔ u.map itemKey = v.map itemKey
  | [], [] => by simp [listEqItems]
  | a :: u, [] => by simp [listEqItems]
  | [], b :: v => by simp [listEqItems]
  | a :: u, b :: v => by
      simp only [listEqItems, Bool.and_eq_true, List.map_cons, List.cons.injEq]
      rw [item_beq_iff_key_eq, listEqItems_iff_map_key u v]

/-- Sorting items and then taking keys is sorting the keys. -/
theorem map_key_pySortItems (l : List DeepCopyRegexItem) :
    (pySortItems l).map itemKey = List.insertionSort pairLe (l.map itemKey) := by
  unfold pySortItems
  refine List.map_insertionSort _ _ _ _ ?_
  intro a _ b _
  show (DeepCopyRegexItem.lt b a = false) ↔ pairLe (itemKey a) (itemKey b)
  rw [show (DeepCopyRegexItem.lt b a = false) ↔ ¬ (DeepCopyRegexItem.lt b a = true) by simp,
    item_lt_iff_pairLt]
  exact Iff.rfl

/-- If two item lists have permuted key multisets, the sorted lists agree
element-wise under `DeepCopyRegexItem.__eq__`. -/
theorem compare_lists_item_of_key_perm {l m : List DeepCopyRegexItem}
    (h : (l.map itemKey).Perm (m.map itemKey)) :
    compare_lists_item (some l) (some m) = true := by
  match l, m with
  | [], m =>
      have : m.map itemKey = [] := h.symm.eq_nil
      rw [List.map_eq_nil_iff] at this
      subst this
      rfl
  | a :: l', [] =>
      exact absurd h.eq_nil (by simp)
  | a :: l', b :: m' =>
      show listEqItems (pySortItems (a :: l')) (pySortItems (b :: m')) = true
      rw [listEqItems_iff_map_key, map_key_pySortItems, map_key_pySortItems]
      have hperm : (List.insertionSort pairLe ((a :: l').map itemKey)).Perm
          (List.insertionSort pairLe ((b :: m').map itemKey)) :=
        (List.perm_insertionSort pairLe _).trans
          (h.trans (List.perm_insertionSort pairLe _).symm)
      exact List.eq_of_perm_of_sorted hperm
        (List.sorted_insertionSort pairLe _) (List.sorted_insertionSort pairLe _)

/-- If two string lists are permutations, `compare_lists` accepts them. -/
theorem compare_lists_str_of_perm {l m : List String} (h : l.Perm m) :
    compare_lists_str (some l) (some m) = true := by
  match l, m with
  | [], m =>
      have := h.symm.eq_nil
      subst this
      rfl
  | a :: l', [] => exact absurd h.eq_nil (by simp)
  | a :: l', b :: m' =>
      show (pySortStr (a :: l') == pySortStr (b :: m')) = true
      have heq : pySortStr (a :: l') = pySortStr (b :: m') := by
        unfold pySortStr
        have hperm : (List.insertionSort strLe (a :: l')).Perm
            (List.insertionSort strLe (b :: m')) :=
          (List.perm_insertionSort strLe _).trans
            (h.trans (List.perm_insertionSort strLe _).symm)
        exact List.eq_of_perm_of_sorted hperm
          (List.sorted_insertionSort strLe _) (List.sorted_insertionSort strLe _)
      simp [heq]

/-- The hypothesis of claim C4 for string-list fields: both absent, or both
present and permutations of each other. -/
def optPermStr : Option (List String) → Option (List String) → Prop
  | none, none => True
  | some l, some m => l.Perm m
  | _, _ => False

/-- The hypothesis of claim C4 for the copy-regex field: both absent, or
both present with element-wise equivalent items up to reordering (stated as
a permutation of the §4.2 comparison keys). -/
def optPermItemKeys : Option (List DeepCopyRegexItem) → Option (List DeepCopyRegexItem) → Prop
  | none, none => True
  | some l, some m => (l.map itemKey).Perm (m.map itemKey)
  | _, _ => False

theorem compare_lists_str_of_optPerm : ∀ {o1 o2 : Option (List String)},
    optPermStr o1 o2 → compare_lists_str o1 o2 = true
  | none, none, _ => rfl
  | some _, some _, h => compare_lists_str_of_perm h
  | none, some _, h => h.elim
  | some _, none, h => h.elim

theorem compare_lists_item_of_optPerm : ∀ {o1 o2 : Option (List DeepCopyRegexItem)},
    optPermItemKeys o1 o2 → compare_lists_item o1 o2 = true
  | none, none, _ => rfl
  | some _, some _, h => compare_lists_item_of_key_perm h
  | none, some _, h => h.elim
  | some _, none, h => h.elim

theorem dockerOptBeq_refl : ∀ o : Option DockerConfig, dockerOptBeq o o = true
  | none => rfl
  | some d => by simp [dockerOptBeq]

/-! ### Parsing (`read_yaml_as_object` in `compare_yaml.py`)

File I/O, comment stripping and the YAML parser itself are external; we
model the value of `yaml.safe_load` after comment stripping.  `none` stands
for a document that parses to `None` (empty file or only comments); a
`YamlDoc` is a top-level mapping, recording for each recognized key whether
it is present and with which value.  `has_extra_keys` records whether the
mapping has any unrecognized top-level keys (it then counts as nonempty,
i.e. truthy, even when all recognized keys are absent).  A present `docker`
value is modelled as a nonempty mapping carrying an `image` string; a
present list under `deep-copy-regex` is a list of `source`/`dest` pairs.
Malformed documents (e.g. a `docker` mapping without `image`) raise inside
the `try` and are not modelled. -/

/-- One element of a `deep-copy-regex` YAML list: a mapping with `source`
and `dest`. -/
structure YamlRawCopyItem where
  source : String
  dest : String
deriving DecidableEq

/-- A parsed top-level YAML mapping, seen through the seven recognized
keys. -/
structure YamlDoc where
  api_name : Option String
  begin_after_commit_hash : Option String
  docker : Option DockerConfig
  squash : Option Bool
  deep_copy_regex : Option (List YamlRawCopyItem)
  deep_remove_regex : Option (List String)
  deep_preserve_regex : Option (List String)
  has_extra_keys : Bool
deriving DecidableEq

/-- The mapping is empty (`{}`), hence falsy for `if not data`. -/
def YamlDoc.isEmptyDoc (d : YamlDoc) : Bool :=
  d.api_name.isNone && d.begin_after_commit_hash.isNone && d.docker.isNone &&
  d.squash.isNone && d.deep_copy_regex.isNone && d.deep_remove_regex.isNone &&
  d.deep_preserve_regex.isNone && !d.has_extra_keys

/-- The parse result is falsy (`if not data` holds): `None` or `{}`. -/
def isFalsyParse : Option YamlDoc → Bool
  | none => true
  | some d => d.isEmptyDoc

/-- `read_yaml_as_object` after the external read/parse step: `if not data:
return None`; then each field via `data.get`.  Note the truthiness guards:
`docker = DockerConfig(...) if docker_data else None` and `deep_copy_regex =
[...] if deep_copy_regex_data else None` — an *empty* `deep-copy-regex`
list is falsy and collapses to `None`. -/
def read_yaml_as_object : Option YamlDoc → Option OwlBotConfig
  | none => none
  | some d =>
      if d.isEmptyDoc then none
      else some {
        api_name := d.api_name,
        begin_after_commit_hash := d.begin_after_commit_hash,
        docker := d.docker,
        squash := d.squash,
        deep_copy_regex :=
          match d.deep_copy_regex with
          | some items =>
              if items.isEmpty then none
              else some (items.map fun it => ⟨it.source, it.dest⟩)
          | none => none,
        deep_remove_regex := d.deep_remove_regex,
        deep_preserve_regex := d.deep_preserve_regex }

/-- Outcome of one file pair in `compare_owlbot_yaml_files` (lines 384-402):
if either side failed to parse, warn and skip; otherwise compare via
`OwlBotConfig.__eq__`. -/
inductive PairOutcome where
  | warned : PairOutcome
  | same : PairOutcome
  | different : PairOutcome
deriving DecidableEq

/-- The per-pair comparison step of `compare_owlbot_yaml_files`. -/
def compare_pair_configs : Option OwlBotConfig → Option OwlBotConfig → PairOutcome
  | some c1, some c2 => if OwlBotConfig.beq c1 c2 then .same else .different
  | _, _ => .warned

/-! ### The patch registry (`common/model/owlbot_yaml_config.py`) and
`update_owlbot_config` / `diff_lists` / `generate_diff` (`compare_yaml.py`)

The registry lists are plain Python lists; `diff_lists` appends strings for
the two string-list keys and `DeepCopyRegexItem` objects for the copy-regex
key, so the element type is the sum of the two. -/

/-- An element appended to a registry list: a string (for
`deep_remove_regex` / `deep_preserve_regex`) or a copy-regex item. -/
inductive DiffItem where
  | str : String → DiffItem
  | copyItem : DeepCopyRegexItem → DiffItem
deriving DecidableEq

/-- `OwlbotYamlAdditionRemove` from `common/model/owlbot_yaml_config.py`:
three optional lists, all `None` by default. -/
structure OwlbotYamlAdditionRemove where
  deep_copy_regex : Option (List DiffItem) := none
  deep_remove_regex : Option (List DiffItem) := none
  deep_preserve_regex : Option (List DiffItem) := none
deriving DecidableEq

/-- `OwlbotYamlConfig` from `common/model/owlbot_yaml_config.py`: optional
`addition` and `remove` sub-objects, `None` by default. -/
structure OwlbotYamlConfig where
  addition : Option OwlbotYamlAdditionRemove := none
  remove : Option OwlbotYamlAdditionRemove := none
deriving DecidableEq

/-- Modelled from the spec: `LibraryConfig` lives in
`common/model/generation_config.py`, which is not among the sources; the
spec says the registry stores, per library, the `owlbot_yaml` patch
directive mutated by the diff step, so we model exactly that attribute. -/
structure LibraryConfig where
  owlbot_yaml : Option OwlbotYamlConfig
deriving DecidableEq

/-- Modelled from the spec: `GenerationConfig` (also in
`common/model/generation_config.py`) is used by the diff step only through
`generation_config.libraries[library_name]`, a mapping from library name to
`LibraryConfig`; we model the mapping as an association list. -/
structure GenerationConfig where
  libraries : List (String × LibraryConfig)
deriving DecidableEq

/-- `generation_config.libraries[library_name]` (successful lookup). -/
def GenerationConfig.getLib? (g : GenerationConfig) (name : String) :
    Option LibraryConfig :=
  (g.libraries.find? fun p => p.1 == name).map (fun p => p.2)

/-- `generation_config.libraries[library_name].owlbot_yaml = cfg`. -/
def GenerationConfig.setOwlbot (g : GenerationConfig) (name : String)
    (cfg : OwlbotYamlConfig) : GenerationConfig :=
  ⟨g.libraries.map fun p => if p.1 == name then (p.1, ⟨some cfg⟩) else p⟩

/-- `update_owlbot_config` from `compare_yaml.py`: create the config if
`None`; for `"addition"`/`"remove"`, lazily create the sub-object, then for
a recognized key lazily create the list (`... or []`) and append the item.
An `OwlbotYamlAdditionRemove` instance is always truthy in Python, so
`if not owlbot_config.addition` holds exactly when the attribute is
`None`. -/
def update_owlbot_config (operation key : String) (item : DiffItem)
    (owlbot_config : Option OwlbotYamlConfig) : OwlbotYamlConfig :=
  let cfg := owlbot_config.getD ⟨none, none⟩
  if operation = "addition" then
    let add := cfg.addition.getD ⟨none, none, none⟩
    let add' :=
      if key = "deep_copy_regex" then
        { add with deep_copy_regex := some (add.deep_copy_regex.getD [] ++ [item]) }
      else if key = "deep_remove_regex" then
        { add with deep_remove_regex := some (add.deep_remove_regex.getD [] ++ [item]) }
      else if key = "deep_preserve_regex" then
        { add with deep_preserve_regex := some (add.deep_preserve_regex.getD [] ++ [item]) }
      else add
    { cfg with addition := some add' }
  else if operation = "remove" then
    let rem := cfg.remove.getD ⟨none, none, none⟩
    let rem' :=
      if key = "deep_copy_regex" then
        { rem with deep_copy_regex := some (rem.deep_copy_regex.getD [] ++ [item]) }
      else if key = "deep_remove_regex" then
        { rem with deep_remove_regex := some (rem.deep_remove_regex.getD [] ++ [item]) }
      else if key = "deep_preserve_regex" then
        { rem with deep_preserve_regex := some (rem.deep_preserve_regex.getD [] ++ [item]) }
      else rem
    { cfg with remove := some rem' }
  else cfg

/-- The registry-update step inside the per-item loops of `diff_lists`:
`generation_config.libraries[library_name].owlbot_yaml = update_owlbot_config(...)`.
With `generation_config = None` the attribute access raises
`AttributeError`; a missing library raises `KeyError`.  Exceptions are
embedded as `Except.error`. -/
def registry_update (op key : String) (item : DiffItem) (library_name : String) :
    Option GenerationConfig → Except String (Option GenerationConfig)
  | none => .error "AttributeError: NoneType object has no attribute libraries"
  | some g =>
      match g.getLib? library_name with
      | none => .error ("KeyError: " ++ library_name)
      | some lib =>
          .ok (some (g.setOwlbot library_name
            (update_owlbot_config op key item lib.owlbot_yaml)))

/-- One of the two per-item loops of `diff_lists`: for each item of `items`
not contained in `other` (membership by `beqf`, i.e. the element type's
`__eq__`), emit `sign ++ key ++ ": " ++ showIt item` and run the registry
update. -/
def diff_items_loop {α : Type} (sign op key : String) (toD : α → DiffItem)
    (showIt : α → String) (beqf : α → α → Bool) (items other : List α)
    (lines : List String) (g : Option GenerationConfig) (library_name : String) :
    Except String (List String × Option GenerationConfig) :=
  match items with
  | [] => .ok (lines, g)
  | it :: rest =>
      if other.any (fun o => beqf it o) then
        diff_items_loop sign op key toD showIt beqf rest other lines g library_name
      else
        match registry_update op key (toD it) library_name g with
        | .error e => .error e
        | .ok g' =>
            diff_items_loop sign op key toD showIt beqf rest other
              (lines ++ [sign ++ key ++ ": " ++ showIt it]) g' library_name

/-- The inner `diff_lists` of `generate_diff`, generic over the element
type as the Python function is: both `None` emits nothing; exactly one
`None` emits one `-`/`+` pair formatting the whole lists; otherwise sort
both sides and run the two per-item loops (removals from `list1`, additions
from `list2`). -/
def diff_lists {α : Type} (sortFn : List α → List α) (beqf : α → α → Bool)
    (toD : α → DiffItem) (showIt : α → String)
    (showOptList : Option (List α) → String) (key : String)
    (list1 list2 : Option (List α)) (library_name : String)
    (generation_config : Option GenerationConfig) :
    Except String (List String × Option GenerationConfig) :=
  match list1, list2 with
  | none, none => .ok ([], generation_config)
  | none, some l2 =>
      .ok (["- " ++ key ++ ": " ++ showOptList none,
            "+ " ++ key ++ ": " ++ showOptList (some l2)], generation_config)
  | some l1, none =>
      .ok (["- " ++ key ++ ": " ++ showOptList (some l1),
            "+ " ++ key ++ ": " ++ showOptList none], generation_config)
  | some l1, some l2 =>
      match diff_items_loop "- " "remove" key toD showIt beqf
          (sortFn l1) (sortFn l2) [] generation_config library_name with
      | .error e => .error e
      | .ok (lines1, g1) =>
          match diff_items_loop "+ " "addition" key toD showIt beqf
              (sortFn l2) (sortFn l1) [] g1 library_name with
          | .error e => .error e
          | .ok (lines2, g2) => .ok (lines1 ++ lines2, g2)

/-- Python `f"{opt}"` for an optional string: `None` prints as `None`. -/
def pyShowOptStr : Option String → String
  | none => "None"
  | some s => s

/-- Python `f"{opt}"` for an optional bool. -/
def pyShowOptBool : Option Bool → String
  | none => "None"
  | some true => "True"
  | some false => "False"

/-- Python `f"{opt}"` for an optional `DockerConfig` (its `__str__`). -/
def pyShowOptDocker : Option DockerConfig → String
  | none => "None"
  | some d => "DockerConfig(image=" ++ d.image ++ ")"

/-- `DeepCopyRegexItem.__str__`. -/
def pyShowItem (it : DeepCopyRegexItem) : String :=
  "(source=" ++ it.source ++ ", dest=" ++ it.dest ++ ")"

/-- Python `repr` of a simple string: surrounded by single quotes (escape
handling for special characters is not modelled). -/
def pyQuote (s : String) : String := "\x27" ++ s ++ "\x27"

/-- Python `f"{opt}"` for an optional list of strings, as in the
one-sided-`None` branch of `diff_lists`. -/
def pyShowOptStrList : Option (List String) → String
  | none => "None"
  | some l => "[" ++ String.intercalate ", " (l.map pyQuote) ++ "]"

/-- Python `f"{opt}"` for an optional list of items.  Python would print
the default `repr` of each object (containing a memory address, which has
no shallow embedding); no theorem depends on this rendering. -/
def pyShowOptItemList : Option (List DeepCopyRegexItem) → String
  | none => "None"
  | some l => "[" ++ String.intercalate ", " (l.map pyShowItem) ++ "]"

/-- `generate_diff` from `compare_yaml.py`: the four scalar comparisons
append a `-`/`+` pair when unequal, then `diff_lists` runs on
`deep_copy_regex`, `deep_remove_regex` and `deep_preserve_regex` in that
order, threading the generation config. -/
def generate_diff (config1 config2 : OwlBotConfig) (library_name : String)
    (generation_config : Option GenerationConfig) :
    Except String (List String × Option GenerationConfig) :=
  let scalarLines :=
    (if config1.api_name == config2.api_name then []
     else ["- api_name: " ++ pyShowOptStr config1.api_name,
           "+ api_name: " ++ pyShowOptStr config2.api_name]) ++
    (if config1.begin_after_commit_hash == config2.begin_after_commit_hash then []
     else ["- begin_after_commit_hash: " ++ pyShowOptStr config1.begin_after_commit_hash,
           "+ begin_after_commit_hash: " ++ pyShowOptStr config2.begin_after_commit_hash]) ++
    (if dockerOptBeq config1.docker config2.docker then []
     else ["- docker: " ++ pyShowOptDocker config1.docker,
           "+ docker: " ++ pyShowOptDocker config2.docker]) ++
    (if config1.squash == config2.squash then []
     else ["- squash: " ++ pyShowOptBool config1.squash,
           "+ squash: " ++ pyShowOptBool config2.squash])
  match diff_lists pySortItems DeepCopyRegexItem.beq DiffItem.copyItem pyShowItem
      pyShowOptItemList "deep_copy_regex" config1.deep_copy_regex
      config2.deep_copy_regex library_name generation_config with
  | .error e => .error e
  | .ok (lines1, g1) =>
      match diff_lists pySortStr (fun a b => a == b) DiffItem.str (fun s => s)
          pyShowOptStrList "deep_remove_regex" config1.deep_remove_regex
          config2.deep_remove_regex library_name g1 with
      | .error e => .error e
      | .ok (lines2, g2) =>
          match diff_lists pySortStr (fun a b => a == b) DiffItem.str (fun s => s)
              pyShowOptStrList "deep_preserve_regex" config1.deep_preserve_regex
              config2.deep_preserve_regex library_name g2 with
          | .error e => .error e
          | .ok (lines3, g3) => .ok (scalarLines ++ lines1 ++ lines2 ++ lines3, g3)

instance {ε α : Type} [DecidableEq ε] [DecidableEq α] : DecidableEq (Except ε α) :=
  fun a b =>
    match a, b with
    | .error e, .error e' => decidable_of_iff (e = e') (by simp)
    | .ok x, .ok y => decidable_of_iff (x = y) (by simp)
    | .error _, .ok _ => isFalse (by simp)
    | .ok _, .error _ => isFalse (by simp)

/-- If every item of `items` is present in `other` (by `beqf`), the loop
emits nothing and leaves the registry untouched. -/
theorem diff_items_loop_all_mem {α : Type} (sign op key : String)
    (toD : α → DiffItem) (showIt : α → String) (beqf : α → α → Bool)
    (items other : List α) (lines : List String) (g : Option GenerationConfig)
    (lib : String) (h : ∀ a ∈ items, other.any (fun o => beqf a o) = true) :
    diff_items_loop sign op key toD showIt beqf items other lines g lib
      = .ok (lines, g) := by
  induction items with
  | nil => rfl
  | cons it rest ih =>
      have hm := h it (List.mem_cons_self it rest)
      simp only [diff_items_loop, hm, if_true]
      exact ih (fun a ha => h a (List.mem_cons_of_mem _ ha))

/-- String lists accepted by `compare_lists` produce no diff lines and no
registry change. -/
theorem diff_lists_str_of_compare_true {o1 o2 : Option (List String)}
    (key lib : String) (g : Option GenerationConfig)
    (h : compare_lists_str o1 o2 = true) :
    diff_lists pySortStr (fun a b => a == b) DiffItem.str (fun s => s)
      pyShowOptStrList key o1 o2 lib g = .ok ([], g) := by
  match o1, o2 with
  | none, none => rfl
  | none, some l => simp [compare_lists_str] at h
  | some l, none => simp [compare_lists_str] at h
  | some l1, some l2 =>
      simp only [compare_lists_str] at h
      by_cases he : (l1.isEmpty || l2.isEmpty) = true
      · rw [if_pos he] at h
        obtain ⟨h1, h2⟩ := Bool.and_eq_true_iff.mp h
        rw [List.isEmpty_iff] at h1 h2
        subst h1; subst h2
        rfl
      · rw [if_neg he] at h
        have hs : pySortStr l1 = pySortStr l2 := by simpa using h
        have hmem : ∀ a ∈ pySortStr l1,
            (pySortStr l2).any (fun o => a == o) = true := by
          intro a ha
          rw [hs] at ha
          exact List.any_eq_true.mpr ⟨a, ha, by simp⟩
        have hmem2 : ∀ a ∈ pySortStr l2,
            (pySortStr l1).any (fun o => a == o) = true := by
          intro a ha
          rw [← hs] at ha
          exact List.any_eq_true.mpr ⟨a, ha, by simp⟩
        have hL1 := diff_items_loop_all_mem "- " "remove" key DiffItem.str
          (fun s => s) (fun a b => a == b) (pySortStr l1) (pySortStr l2) [] g lib hmem
        have hL2 := diff_items_loop_all_mem "+ " "addition" key DiffItem.str
          (fun s => s) (fun a b => a == b) (pySortStr l2) (pySortStr l1) [] g lib hmem2
        show (match diff_items_loop "- " "remove" key DiffItem.str (fun s => s)
            (fun a b => a == b) (pySortStr l1) (pySortStr l2) [] g lib with
          | .error e => Except.error e
          | .ok (lines1, g1) =>
              match diff_items_loop "+ " "addition" key DiffItem.str (fun s => s)
                  (fun a b => a == b) (pySortStr l2) (pySortStr l1) [] g1 lib with
              | .error e => Except.error e
              | .ok (lines2, g2) => Except.ok (lines1 ++ lines2, g2))
          = Except.ok ([], g)
        rw [hL1]
        dsimp only
        rw [hL2]
        exact rfl

/-- Item lists accepted by `compare_lists` produce no diff lines and no
registry change (membership goes through the normalized equivalence on both
sides). -/
theorem diff_lists_item_of_compare_true {o1 o2 : Option (List DeepCopyRegexItem)}
    (key lib : String) (g : Option GenerationConfig)
    (h : compare_lists_item o1 o2 = true) :
    diff_lists pySortItems DeepCopyRegexItem.beq DiffItem.copyItem pyShowItem
      pyShowOptItemList key o1 o2 lib g = .ok ([], g) := by
  match o1, o2 with
  | none, none => rfl
  | none, some l => simp [compare_lists_item] at h
  | some l, none => simp [compare_lists_item] at h
  | some l1, some l2 =>
      simp only [compare_lists_item] at h
      by_cases he : (l1.isEmpty || l2.isEmpty) = true
      · rw [if_pos he] at h
        obtain ⟨h1, h2⟩ := Bool.and_eq_true_iff.mp h
        rw [List.isEmpty_iff] at h1 h2
        subst h1; subst h2
        rfl
      · rw [if_neg he] at h
        have hk : (pySortItems l1).map itemKey = (pySortItems l2).map itemKey :=
          (listEqItems_iff_map_key _ _).mp h
        have hmem : ∀ a ∈ pySortItems l1,
            (pySortItems l2).any (fun o => a.beq o) = true := by
          intro a ha
          have : itemKey a ∈ (pySortItems l2).map itemKey := by
            rw [← hk]
            exact List.mem_map_of_mem itemKey ha
          obtain ⟨b, hb, hab⟩ := List.mem_map.mp this
          exact List.any_eq_true.mpr ⟨b, hb, (item_beq_iff_key_eq a b).mpr hab.symm⟩
        have hmem2 : ∀ a ∈ pySortItems l2,
            (pySortItems l1).any (fun o => a.beq o) = true := by
          intro a ha
          have : itemKey a ∈ (pySortItems l1).map itemKey := by
            rw [hk]
            exact List.mem_map_of_mem itemKey ha
          obtain ⟨b, hb, hab⟩ := List.mem_map.mp this
          exact List.any_eq_true.mpr ⟨b, hb, (item_beq_iff_key_eq a b).mpr hab.symm⟩
        have hL1 := diff_items_loop_all_mem "- " "remove" key DiffItem.copyItem
          pyShowItem DeepCopyRegexItem.beq (pySortItems l1) (pySortItems l2) [] g lib hmem
        have hL2 := diff_items_loop_all_mem "+ " "addition" key DiffItem.copyItem
          pyShowItem DeepCopyRegexItem.beq (pySortItems l2) (pySortItems l1) [] g lib hmem2
        show (match diff_items_loop "- " "remove" key DiffItem.copyItem pyShowItem
            DeepCopyRegexItem.beq (pySortItems l1) (pySortItems l2) [] g lib with
          | .error e => Except.error e
          | .ok (lines1, g1) =>
              match diff_items_loop "+ " "addition" key DiffItem.copyItem pyShowItem
                  DeepCopyRegexItem.beq (pySortItems l2) (pySortItems l1) [] g1 lib with
              | .error e => Except.error e
              | .ok (lines2, g2) => Except.ok (lines1 ++ lines2, g2))
          = Except.ok ([], g)
        rw [hL1]
        dsimp only
        rw [hL2]
        exact rfl

/-- The `addition` or `remove` sub-object selected by an operation name
(used only to state claims about `update_owlbot_config`). -/
def regSub (op : String) (c : OwlbotYamlConfig) : Option OwlbotYamlAdditionRemove :=
  if op = "addition" then c.addition else c.remove

/-- The registry list selected by an operation and a key, `[]` when absent
(used only to state claims about `update_owlbot_config`). -/
def regList (op key : String) (c : OwlbotYamlConfig) : List DiffItem :=
  match regSub op c with
  | none => []
  | some s =>
      (if key = "deep_copy_regex" then s.deep_copy_regex
       else if key = "deep_remove_regex" then s.deep_remove_regex
       else s.deep_preserve_regex).getD []

end CompareYaml

open CompareYaml

/-- C5: `normalize_source` maps `"v\d"` (the characters `v`, `\`, `d`) to
`"v*"` and `"v.*"` to `"v*"`, leaves `"v1"` unchanged, and is idempotent on
every input string. -/
theorem c5_normalize_source_spec :
    normalize_source "v\\d" = "v*" ∧ normalize_source "v.*" = "v*" ∧
    normalize_source "v1" = "v1" ∧
    ∀ s : String, normalize_source (normalize_source s) = normalize_source s :=
  ⟨by decide, by decide, by decide, normalize_source_idem⟩

/-- C2: `compare_lists` (inside `OwlBotConfig.__eq__`), at both list types:
both `None` is equivalent; exactly one `None` is not (in particular `None`
vs `[]` is never equivalent); both present with an empty side is equivalent
iff both are empty; both nonempty compares the sorted lists element-wise. -/
theorem c2_compare_lists_spec (a b : String) (l l' : List String)
    (x y : DeepCopyRegexItem) (m m' : List DeepCopyRegexItem) :
    compare_lists_str none none = true ∧
    compare_lists_str (some l) none = false ∧
    compare_lists_str none (some l) = false ∧
    compare_lists_str (some []) (some l) = l.isEmpty ∧
    compare_lists_str (some l) (some []) = l.isEmpty ∧
    compare_lists_str (some (a :: l)) (some (b :: l')) =
      (pySortStr (a :: l) == pySortStr (b :: l')) ∧
    compare_lists_item none none = true ∧
    compare_lists_item (some m) none = false ∧
    compare_lists_item none (some m) = false ∧
    compare_lists_item (some []) (some m) = m.isEmpty ∧
    compare_lists_item (some m) (some []) = m.isEmpty ∧
    compare_lists_item (some (x :: m)) (some (y :: m')) =
      listEqItems (pySortItems (x :: m)) (pySortItems (y :: m')) := by
  refine ⟨rfl, rfl, rfl, ?_, ?_, ?_, rfl, rfl, rfl, ?_, ?_, ?_⟩ <;>
    simp [compare_lists_str, compare_lists_item]

/-- C4: `OwlBotConfig.__eq__` is invariant under permutation of the list
fields: records with equal scalar fields whose list fields are permutations
of each other (up to the §4.2 normalized-source/dest equivalence for
copy-regex items, plain equality for strings) compare equal. -/
theorem c4_eq_invariant_under_list_permutation (c1 c2 : OwlBotConfig)
    (h1 : c1.api_name = c2.api_name)
    (h2 : c1.begin_after_commit_hash = c2.begin_after_commit_hash)
    (h3 : c1.docker = c2.docker)
    (h4 : c1.squash = c2.squash)
    (h5 : optPermItemKeys c1.deep_copy_regex c2.deep_copy_regex)
    (h6 : optPermStr c1.deep_remove_regex c2.deep_remove_regex)
    (h7 : optPermStr c1.deep_preserve_regex c2.deep_preserve_regex) :
    OwlBotConfig.beq c1 c2 = true := by
  unfold OwlBotConfig.beq
  rw [h1, h2, h3, h4, compare_lists_item_of_optPerm h5,
    compare_lists_str_of_optPerm h6, compare_lists_str_of_optPerm h7,
    dockerOptBeq_refl]
  simp

/-- Witness for C4 at concrete records: the copy-regex lists are reordered
and one source is written `v\d` on one side and `v.*` on the other; the
remove lists are reordered; the records still compare equal. -/
theorem c4_witness :
    OwlBotConfig.beq
      ⟨some "api", none, some ⟨"img"⟩, some true,
        some [⟨"v\\d/x", "d1"⟩, ⟨"p", "d0"⟩], some ["b", "a"], none⟩
      ⟨some "api", none, some ⟨"img"⟩, some true,
        some [⟨"p", "d0"⟩, ⟨"v.*/x", "d1"⟩], some ["a", "b"], none⟩ = true := by
  refine c4_eq_invariant_under_list_permutation _ _ rfl rfl rfl rfl ?_ ?_ ?_
  · show (List.map itemKey [⟨"v\\d/x", "d1"⟩, ⟨"p", "d0"⟩]).Perm
      (List.map itemKey [⟨"p", "d0"⟩, ⟨"v.*/x", "d1"⟩])
    decide
  · show List.Perm ["b", "a"] ["a", "b"]
    decide
  · exact trivial

/-- C1, counterexample: a YAML document whose `deep-copy-regex` key is
present and bound to the empty list parses to a record whose
`deep_copy_regex` field is `None` — the field does not record that the key
was present, contradicting the claimed iff for all three list fields. -/
theorem c1_counterexample :
    (YamlDoc.deep_copy_regex ⟨none, none, none, none, some [], none, none, false⟩
        = some []) ∧
    read_yaml_as_object (some ⟨none, none, none, none, some [], none, none, false⟩) =
      some ⟨none, none, none, none, none, none, none⟩ := by
  exact ⟨rfl, rfl⟩

/-- C1, amended: for a truthy document, six of the seven fields are `None`
iff the corresponding key is absent; for `deep_copy_regex` the field is
`None` iff the key is absent *or* bound to an empty list. -/
theorem c1_field_presence (d : YamlDoc) (h : d.isEmptyDoc = false) :
    ∃ c : OwlBotConfig, read_yaml_as_object (some d) = some c ∧
      (c.api_name = none ↔ d.api_name = none) ∧
      (c.begin_after_commit_hash = none ↔ d.begin_after_commit_hash = none) ∧
      (c.docker = none ↔ d.docker = none) ∧
      (c.squash = none ↔ d.squash = none) ∧
      (c.deep_copy_regex = none ↔
        (d.deep_copy_regex = none ∨ d.deep_copy_regex = some [])) ∧
      (c.deep_remove_regex = none ↔ d.deep_remove_regex = none) ∧
      (c.deep_preserve_regex = none ↔ d.deep_preserve_regex = none) := by
  refine ⟨_, by rw [read_yaml_as_object, if_neg (by simp [h])], ?_, ?_, ?_, ?_, ?_, ?_, ?_⟩
  · exact Iff.rfl
  · exact Iff.rfl
  · exact Iff.rfl
  · exact Iff.rfl
  · cases hdc : d.deep_copy_regex with
    | none => simp
    | some items => cases items <;> simp
  · exact Iff.rfl
  · exact Iff.rfl

/-- Witness for C1 (amended) at a document with `deep-remove-regex: []` and
`api-name` present. -/
theorem c1_field_presence_witness :
    (YamlDoc.isEmptyDoc ⟨some "api", none, none, none, none, some [], none, false⟩
        = false) ∧
    ∃ c : OwlBotConfig,
      read_yaml_as_object
          (some ⟨some "api", none, none, none, none, some [], none, false⟩) = some c ∧
      (c.api_name = none ↔ (some "api" : Option String) = none) ∧
      (c.begin_after_commit_hash = none ↔ (none : Option String) = none) ∧
      (c.docker = none ↔ (none : Option DockerConfig) = none) ∧
      (c.squash = none ↔ (none : Option Bool) = none) ∧
      (c.deep_copy_regex = none ↔
        ((none : Option (List YamlRawCopyItem)) = none ∨
          (none : Option (List YamlRawCopyItem)) = some [])) ∧
      (c.deep_remove_regex = none ↔ (some [] : Option (List String)) = none) ∧
      (c.deep_preserve_regex = none ↔ (none : Option (List String)) = none) :=
  ⟨by decide, c1_field_presence _ (by decide)⟩

/-- C10: a file whose content parses to a falsy document (empty file, only
comments, or an empty mapping) makes `read_yaml_as_object` return `None`,
and the directory pass then warns and skips the pair instead of comparing,
whatever the other side parsed to. -/
theorem c10_falsy_parse_skips_pair (p other : Option YamlDoc)
    (h : isFalsyParse p = true) :
    read_yaml_as_object p = none ∧
    compare_pair_configs (read_yaml_as_object p) (read_yaml_as_object other)
      = PairOutcome.warned ∧
    compare_pair_configs (read_yaml_as_object other) (read_yaml_as_object p)
      = PairOutcome.warned := by
  have hp : read_yaml_as_object p = none := by
    match p with
    | none => rfl
    | some d =>
        rw [read_yaml_as_object, if_pos ?_]
        exact h
  refine ⟨hp, ?_, ?_⟩ <;> rw [hp] <;>
    cases read_yaml_as_object other <;> rfl

/-- Witness for C10: the empty mapping on the left, a nonempty document on
the right. -/
theorem c10_falsy_parse_skips_pair_witness :
    (isFalsyParse (some ⟨none, none, none, none, none, none, none, false⟩) = true) ∧
    (read_yaml_as_object (some ⟨none, none, none, none, none, none, none, false⟩)
        = none ∧
      compare_pair_configs
          (read_yaml_as_object (some ⟨none, none, none, none, none, none, none, false⟩))
          (read_yaml_as_object (some ⟨some "x", none, none, none, none, none, none, false⟩))
        = PairOutcome.warned ∧
      compare_pair_configs
          (read_yaml_as_object (some ⟨some "x", none, none, none, none, none, none, false⟩))
          (read_yaml_as_object (some ⟨none, none, none, none, none, none, none, false⟩))
        = PairOutcome.warned) :=
  ⟨by decide, c10_falsy_parse_skips_pair _ _ (by decide)⟩

/-- C6: `update_owlbot_config`, for operation `"addition"` or `"remove"`
and a recognized key, lazily creates the sub-object and the target list and
appends the item; a second call with the same operation and key appends
again (no deduplication). -/
theorem c6_update_owlbot_config_appends (owl : Option OwlbotYamlConfig)
    (it it' : DiffItem) (op key : String)
    (hop : op = "addition" ∨ op = "remove")
    (hkey : key = "deep_copy_regex" ∨ key = "deep_remove_regex" ∨
      key = "deep_preserve_regex") :
    (regSub op (update_owlbot_config op key it owl)).isSome = true ∧
    regList op key (update_owlbot_config op key it owl)
      = regList op key (owl.getD ⟨none, none⟩) ++ [it] ∧
    regList op key (update_owlbot_config op key it'
        (some (update_owlbot_config op key it owl)))
      = regList op key (owl.getD ⟨none, none⟩) ++ [it, it'] := by
  rcases hop with hop | hop <;> subst hop <;>
    rcases hkey with hkey | hkey | hkey <;> subst hkey <;>
    rcases owl with _ | ⟨_ | add, _ | rem⟩ <;>
    refine ⟨rfl, ?_, ?_⟩ <;>
    simp [update_owlbot_config, regSub, regList, Option.getD]

/-- Witness for C6 at operation `"addition"`, key `"deep_remove_regex"`, a
fresh config, the same item twice. -/
theorem c6_update_owlbot_config_appends_witness :
    (regSub "addition"
      (update_owlbot_config "addition" "deep_remove_regex" (.str "x") none)).isSome
        = true ∧
    regList "addition" "deep_remove_regex"
      (update_owlbot_config "addition" "deep_remove_regex" (.str "x") none)
        = regList "addition" "deep_remove_regex"
            ((none : Option OwlbotYamlConfig).getD ⟨none, none⟩) ++ [.str "x"] ∧
    regList "addition" "deep_remove_regex"
      (update_owlbot_config "addition" "deep_remove_regex" (.str "x")
        (some (update_owlbot_config "addition" "deep_remove_regex" (.str "x") none)))
        = regList "addition" "deep_remove_regex"
            ((none : Option OwlbotYamlConfig).getD ⟨none, none⟩) ++
              [.str "x", .str "x"] :=
  c6_update_owlbot_config_appends none (.str "x") (.str "x") "addition"
    "deep_remove_regex" (Or.inl rfl) (Or.inr (Or.inl rfl))

/-- C7: `diff_lists` with exactly one side `None` emits exactly one
removal/addition pair formatting the whole lists and returns the generation
config unchanged (no registry update in this branch), for either
orientation, any element type and any parameters. -/
theorem c7_diff_lists_one_none {α : Type} (sortFn : List α → List α)
    (beqf : α → α → Bool) (toD : α → DiffItem) (showIt : α → String)
    (showOptList : Option (List α) → String) (key : String) (l : List α)
    (library_name : String) (g : Option GenerationConfig) :
    diff_lists sortFn beqf toD showIt showOptList key none (some l) library_name g
      = .ok (["- " ++ key ++ ": " ++ showOptList none,
              "+ " ++ key ++ ": " ++ showOptList (some l)], g) ∧
    diff_lists sortFn beqf toD showIt showOptList key (some l) none library_name g
      = .ok (["- " ++ key ++ ": " ++ showOptList (some l),
              "+ " ++ key ++ ": " ++ showOptList none], g) :=
  ⟨rfl, rfl⟩

/-- C3: diffing `["a","c"]` against `["b","c"]` under key
`deep_remove_regex` with an initially empty patch directive emits exactly a
removal of `a` and an addition of `b` (no line mentions `c`), and leaves
the registry with exactly one removed `a` and one added `b`; and for the
copy-regex list membership uses the normalized-source/dest equivalence, so
`v\d`/`v.*` spellings of the same item produce no diff even though the raw
values differ. -/
theorem c3_diff_lists_example :
    diff_lists pySortStr (fun a b => a == b) DiffItem.str (fun s => s)
        pyShowOptStrList "deep_remove_regex" (some ["a", "c"]) (some ["b", "c"])
        "lib" (some ⟨[("lib", ⟨none⟩)]⟩)
      = .ok (["- deep_remove_regex: a", "+ deep_remove_regex: b"],
          some ⟨[("lib", ⟨some ⟨some ⟨none, some [.str "b"], none⟩,
            some ⟨none, some [.str "a"], none⟩⟩⟩)]⟩) ∧
    diff_lists pySortItems DeepCopyRegexItem.beq DiffItem.copyItem pyShowItem
        pyShowOptItemList "deep_copy_regex" (some [⟨"v\\d/x", "d"⟩])
        (some [⟨"v.*/x", "d"⟩]) "lib" (some ⟨[("lib", ⟨none⟩)]⟩)
      = .ok ([], some ⟨[("lib", ⟨none⟩)]⟩) ∧
    (⟨"v\\d/x", "d"⟩ : DeepCopyRegexItem) ≠ ⟨"v.*/x", "d"⟩ := by
  refine ⟨by decide, by decide, by decide⟩

/-- C8: records that compare equal under `OwlBotConfig.__eq__` produce an
empty diff and leave the generation config exactly as it was. -/
theorem c8_generate_diff_of_equal (c1 c2 : OwlBotConfig) (lib : String)
    (g : Option GenerationConfig) (h : OwlBotConfig.beq c1 c2 = true) :
    generate_diff c1 c2 lib g = .ok ([], g) := by
  unfold OwlBotConfig.beq at h
  simp only [Bool.and_eq_true] at h
  obtain ⟨⟨⟨⟨⟨⟨h1, h2⟩, h3⟩, h4⟩, h5⟩, h6⟩, h7⟩ := h
  have hd5 := diff_lists_item_of_compare_true "deep_copy_regex" lib g h5
  have hd6 := diff_lists_str_of_compare_true "deep_remove_regex" lib g h6
  have hd7 := diff_lists_str_of_compare_true "deep_preserve_regex" lib g h7
  simp only [generate_diff, h1, h2, h3, h4, if_true]
  rw [hd5]
  dsimp only
  rw [hd6]
  dsimp only
  rw [hd7]
  exact rfl

/-- Witness for C8: two identical one-field records, no generation config. -/
theorem c8_generate_diff_of_equal_witness :
    OwlBotConfig.beq ⟨some "api", none, none, none, none, some ["x"], none⟩
        ⟨some "api", none, none, none, none, some ["x"], none⟩ = true ∧
    generate_diff ⟨some "api", none, none, none, none, some ["x"], none⟩
        ⟨some "api", none, none, none, none, some ["x"], none⟩ "lib" none
      = .ok ([], none) :=
  ⟨by decide, c8_generate_diff_of_equal _ _ "lib" none (by decide)⟩

/-- C9, counterexample: with no generation configuration (`None`), a pair of
records differing item-wise in `deep_remove_regex` makes `generate_diff`
raise (`AttributeError` on `None.libraries`) instead of returning the diff
lines. -/
theorem c9_counterexample :
    generate_diff ⟨none, none, none, none, none, some ["a"], none⟩
        ⟨none, none, none, none, none, some ["b"], none⟩ "foo" none
      = .error "AttributeError: NoneType object has no attribute libraries" := by
  decide

/-- C9, amended: with a `None` generation configuration, `generate_diff`
still returns without failing whenever no per-item registry update is
triggered — i.e. when each list-field pair has a `None` side or passes
`compare_lists`; scalar differences and whole-list `None`-versus-list
differences are still reported.  (A per-item mismatch, by contrast,
dereferences the `None` configuration and raises, as the counterexample
shows.) -/
theorem c9_generate_diff_none_config (c1 c2 : OwlBotConfig) (lib : String)
    (h5 : c1.deep_copy_regex = none ∨ c2.deep_copy_regex = none ∨
      compare_lists_item c1.deep_copy_regex c2.deep_copy_regex = true)
    (h6 : c1.deep_remove_regex = none ∨ c2.deep_remove_regex = none ∨
      compare_lists_str c1.deep_remove_regex c2.deep_remove_regex = true)
    (h7 : c1.deep_preserve_regex = none ∨ c2.deep_preserve_regex = none ∨
      compare_lists_str c1.deep_preserve_regex c2.deep_preserve_regex = true) :
    ∃ lines, generate_diff c1 c2 lib none = .ok (lines, none) := by
  have hstr : ∀ (key : String) (o1 o2 : Option (List String)),
      o1 = none ∨ o2 = none ∨ compare_lists_str o1 o2 = true →
      ∃ ls, diff_lists pySortStr (fun a b => a == b) DiffItem.str (fun s => s)
        pyShowOptStrList key o1 o2 lib none = .ok (ls, none) := by
    intro key o1 o2 hc
    rcases hc with hc | hc | hc
    · subst hc
      cases o2 <;> exact ⟨_, rfl⟩
    · subst hc
      cases o1 <;> exact ⟨_, rfl⟩
    · exact ⟨[], diff_lists_str_of_compare_true key lib none hc⟩
  have hitem : ∀ (key : String) (o1 o2 : Option (List DeepCopyRegexItem)),
      o1 = none ∨ o2 = none ∨ compare_lists_item o1 o2 = true →
      ∃ ls, diff_lists pySortItems DeepCopyRegexItem.beq DiffItem.copyItem
        pyShowItem pyShowOptItemList key o1 o2 lib none = .ok (ls, none) := by
    intro key o1 o2 hc
    rcases hc with hc | hc | hc
    · subst hc
      cases o2 <;> exact ⟨_, rfl⟩
    · subst hc
      cases o1 <;> exact ⟨_, rfl⟩
    · exact ⟨[], diff_lists_item_of_compare_true key lib none hc⟩
  obtain ⟨L1, hL1⟩ := hitem "deep_copy_regex" _ _ h5
  obtain ⟨L2, hL2⟩ := hstr "deep_remove_regex" _ _ h6
  obtain ⟨L3, hL3⟩ := hstr "deep_preserve_regex" _ _ h7
  refine ⟨((if c1.api_name == c2.api_name then ([] : List String)
      else ["- api_name: " ++ pyShowOptStr c1.api_name,
            "+ api_name: " ++ pyShowOptStr c2.api_name]) ++
    (if c1.begin_after_commit_hash == c2.begin_after_commit_hash then []
     else ["- begin_after_commit_hash: " ++ pyShowOptStr c1.begin_after_commit_hash,
           "+ begin_after_commit_hash: " ++ pyShowOptStr c2.begin_after_commit_hash]) ++
    (if dockerOptBeq c1.docker c2.docker then []
     else ["- docker: " ++ pyShowOptDocker c1.docker,
           "+ docker: " ++ pyShowOptDocker c2.docker]) ++
    (if c1.squash == c2.squash then []
     else ["- squash: " ++ pyShowOptBool c1.squash,
           "+ squash: " ++ pyShowOptBool c2.squash])) ++ L1 ++ L2 ++ L3, ?_⟩
  simp only [generate_diff]
  rw [hL1]
  dsimp only
  rw [hL2]
  dsimp only
  rw [hL3]

/-- Witness for C9 (amended): records differing only in a scalar field,
compared with no generation configuration, still yield their diff lines. -/
theorem c9_generate_diff_none_config_witness :
    ∃ lines, generate_diff ⟨some "x", none, none, none, none, none, none⟩
        ⟨some "y", none, none, none, none, none, none⟩ "lib" none
      = .ok (lines, none) :=
  c9_generate_diff_none_config _ _ "lib" (Or.inl rfl) (Or.inl rfl) (Or.inl rfl)
